import Mathlib

/-!
Shallow embedding of `FastAPI_UnixToPS_main.py`, a Unix-to-PowerShell
command converter.  Pure translation logic (`load_command_mappings`,
`convert_unix_to_powershell`, the `/convert` endpoint body) is embedded as
Lean functions over `String`; the HTTP layer is modelled as `Except` with a
status code.  Python strings are Lean `String`s (a structure over
`List Char`), so the Python slicing/startswith operations are embedded via
`String.data`.
-/

namespace UnixToPS

/-- Python `s.startswith(p)`: `p` is a prefix of `s` (character-wise). -/
def strStartsWith (s p : String) : Bool :=
  p.data.isPrefixOf s.data

/-- Python `s[1:]`: drop the first character of `s`. -/
def pyDrop1 (s : String) : String :=
  ⟨s.data.drop 1⟩

/-- Python `s.strip()`: remove leading and trailing whitespace. -/
def pyStrip (s : String) : String :=
  ⟨((s.data.dropWhile Char.isWhitespace).reverse.dropWhile Char.isWhitespace).reverse⟩

/-- Helper for `pySplit`: split a character list on whitespace, producing
(possibly empty) chunks between whitespace characters. -/
def splitWsAux : List Char → List Char → List (List Char)
  | [], acc => [acc.reverse]
  | c :: cs, acc =>
    if c.isWhitespace then acc.reverse :: splitWsAux cs []
    else splitWsAux cs (c :: acc)

/-- Python `s.split()` (no separator): split on whitespace runs and drop
empty tokens. -/
def pySplit (s : String) : List String :=
  ((splitWsAux s.data []).filter (· ≠ [])).map (fun l => ⟨l⟩)

/-- The built-in fallback mapping table of `load_command_mappings`
(the dict literal at lines 16-49 of the source), as an association list in
source order.  Python dict keys are unique, so lookup by first match is
exact. -/
def defaultMappings : List (String × String) :=
  [("ls", "Get-ChildItem"),
   ("pwd", "Get-Location"),
   ("cd", "Set-Location"),
   ("mkdir", "New-Item -ItemType Directory"),
   ("rmdir", "Remove-Item -Recurse"),
   ("rm", "Remove-Item"),
   ("cp", "Copy-Item"),
   ("mv", "Move-Item"),
   ("cat", "Get-Content"),
   ("grep", "Select-String"),
   ("find", "Get-ChildItem -Recurse"),
   ("ps", "Get-Process"),
   ("kill", "Stop-Process"),
   ("chmod", "Set-ItemProperty"),
   ("which", "Get-Command"),
   ("echo", "Write-Output"),
   ("env", "Get-ChildItem Env:"),
   ("history", "Get-History"),
   ("clear", "Clear-Host"),
   ("head", "Get-Content | Select-Object -First"),
   ("tail", "Get-Content | Select-Object -Last"),
   ("wc", "Measure-Object"),
   ("sort", "Sort-Object"),
   ("uniq", "Get-Unique"),
   ("df", "Get-WmiObject -Class Win32_LogicalDisk"),
   ("du", "Get-ChildItem | Measure-Object -Property Length -Sum"),
   ("mount", "Get-WmiObject -Class Win32_Volume"),
   ("wget", "Invoke-WebRequest"),
   ("curl", "Invoke-RestMethod"),
   ("tar", "Expand-Archive / Compress-Archive"),
   ("ssh", "Enter-PSSession"),
   ("scp", "Copy-Item -ToSession / Copy-Item -FromSession")]

/-- Outcome of attempting to read and parse `command_mappings.json` at
startup: the file may be absent (`open` raises `FileNotFoundError`),
present but not valid JSON (`json.load` raises `JSONDecodeError`), or
present and parsed to a string-to-string mapping. -/
inductive ReadResult where
  | missing : ReadResult
  | unparsable : ReadResult
  | parsed : List (String × String) → ReadResult

/-- `load_command_mappings` (source lines 10-49): `try` to read and parse
the external file, returning its mapping; the `except FileNotFoundError`
clause returns `defaultMappings`.  No other exception is caught, so an
unparsable file propagates `json.JSONDecodeError` (modelled as
`Except.error`). -/
def load_command_mappings : ReadResult → Except String (List (String × String))
  | .missing => .ok defaultMappings
  | .unparsable => .error "json.decoder.JSONDecodeError"
  | .parsed m => .ok m

/-- The module-level `command_mappings` global (line 51).  The repository
ships no `command_mappings.json`, so startup takes the
`FileNotFoundError` branch and the table is the built-in default. -/
def command_mappings : List (String × String) :=
  defaultMappings

/-- Python `base_command in command_mappings` / `command_mappings[base]`:
dictionary lookup. -/
def lookup (m : List (String × String)) (k : String) : Option String :=
  (m.find? (fun p => p.1 == k)).map (fun p => p.2)

/-- The `ls` branch (lines 84-90). -/
def lsRule (ps_base : String) (args : List String) : String × String :=
  if "-la" ∈ args ∨ "-l" ∈ args then
    ("Get-ChildItem | Format-List", "Lists files with detailed information")
  else if "-a" ∈ args then
    ("Get-ChildItem -Force", "Lists all files including hidden ones")
  else
    (ps_base, "Lists files and directories")

/-- The `grep` branch (lines 92-101). -/
def grepRule (ps_base : String) (args : List String) : String × String :=
  match args with
  | [] => (ps_base, "Searches for patterns in text")
  | [pattern] =>
      ("Select-String -Pattern '" ++ pattern ++ "'",
       "Searches for pattern '" ++ pattern ++ "' in input")
  | pattern :: file :: _ =>
      ("Select-String -Pattern '" ++ pattern ++ "' -Path '" ++ file ++ "'",
       "Searches for pattern '" ++ pattern ++ "' in file '" ++ file ++ "'")

/-- The `find` branch (lines 103-114).  When `-name` is present but is the
last token, the inner `if name_idx + 1 < len(args)` has no `else`, and the
`else` on line 110 belongs to `if "-name" in args`: control falls off the
end of the Python function, which returns `None` — hence `Option` and the
`none` case. -/
def findRule (ps_base : String) (args : List String) : Option (String × String) :=
  if args = [] then
    some (ps_base, "Finds files and directories")
  else if "-name" ∈ args then
    (if args.indexOf "-name" + 1 < args.length then
       some ("Get-ChildItem -Recurse -Name '*" ++ args.getD (args.indexOf "-name" + 1) "" ++ "*'",
             "Finds files matching pattern '" ++ args.getD (args.indexOf "-name" + 1) "" ++ "'")
     else none)
  else
    some ("Get-ChildItem -Path '" ++ args.headD "" ++ "' -Recurse",
          "Lists all files in directory '" ++ args.headD "" ++ "' recursively")

/-- The `head` branch (lines 116-125). -/
def headRule (args : List String) : String × String :=
  match args with
  | [] => ("Get-Content | Select-Object -First 10", "Shows first 10 lines (default)")
  | a :: rest =>
    if strStartsWith a "-" then
      let lines := pyDrop1 a
      match rest with
      | [] => ("Select-Object -First " ++ lines, "Shows first " ++ lines ++ " lines")
      | file :: _ =>
          ("Get-Content '" ++ file ++ "' | Select-Object -First " ++ lines,
           "Shows first " ++ lines ++ " lines of file '" ++ file ++ "'")
    else ("Get-Content | Select-Object -First 10", "Shows first 10 lines (default)")

/-- The `tail` branch (lines 127-136). -/
def tailRule (args : List String) : String × String :=
  match args with
  | [] => ("Get-Content | Select-Object -Last 10", "Shows last 10 lines (default)")
  | a :: rest =>
    if strStartsWith a "-" then
      let lines := pyDrop1 a
      match rest with
      | [] => ("Select-Object -Last " ++ lines, "Shows last " ++ lines ++ " lines")
      | file :: _ =>
          ("Get-Content '" ++ file ++ "' | Select-Object -Last " ++ lines,
           "Shows last " ++ lines ++ " lines of file '" ++ file ++ "'")
    else ("Get-Content | Select-Object -Last 10", "Shows last 10 lines (default)")

/-- The `kill` branch (lines 138-143). -/
def killRule (ps_base : String) (args : List String) : String × String :=
  match args with
  | [] => (ps_base, "Terminates processes")
  | pid :: _ =>
      ("Stop-Process -Id " ++ pid, "Terminates process with ID " ++ pid)

/-- The `cd`/`mkdir`/`rmdir`/`rm`/`cp`/`mv`/`cat` branch (lines 145-150):
join all args with a single space and quote the result. -/
def joinRule (ps_base base : String) (args : List String) : String × String :=
  match args with
  | [] => (ps_base, "PowerShell equivalent of " ++ base)
  | _ :: _ =>
    let target := String.intercalate " " args
    (ps_base ++ " '" ++ target ++ "'",
     "Performs " ++ base ++ " operation on '" ++ target ++ "'")

/-- The default branch for any other mapped command (lines 152-157). -/
def defaultRule (ps_base base : String) (args : List String) : String × String :=
  match args with
  | [] => (ps_base, "PowerShell equivalent of " ++ base)
  | _ :: _ =>
      (ps_base ++ " " ++ String.intercalate " " args,
       "PowerShell equivalent of " ++ base ++ " with arguments")

/-- The placeholder emitted for an unmapped base command (line 160). -/
def placeholder (base : String) : String :=
  "# No direct mapping found for '" ++ base ++ "'"

/-- The explanation emitted for an unmapped base command (line 160). -/
def unmappedExpl (base : String) : String :=
  "Command '" ++ base ++ "' doesn't have a direct PowerShell equivalent in our database"

/-- The dispatcher body of `convert_unix_to_powershell` (lines 80-160):
lookup of the base command followed by the `if`/`elif` chain on the base
command's name.  `none` models the Python function returning `None` (the
dangling `find` case). -/
def dispatch (m : List (String × String)) (base : String) (args : List String) :
    Option (String × String) :=
  match lookup m base with
  | none => some (placeholder base, unmappedExpl base)
  | some ps_base =>
    if base = "ls" then some (lsRule ps_base args)
    else if base = "grep" then some (grepRule ps_base args)
    else if base = "find" then findRule ps_base args
    else if base = "head" then some (headRule args)
    else if base = "tail" then some (tailRule args)
    else if base = "kill" then some (killRule ps_base args)
    else if base ∈ ["cd", "mkdir", "rmdir", "rm", "cp", "mv", "cat"] then
      some (joinRule ps_base base args)
    else some (defaultRule ps_base base args)

/-- The tokenizer of `convert_unix_to_powershell` (lines 72-77):
`unix_cmd.strip()` then `.split()`. -/
def tokenize (line : String) : List String :=
  pySplit (pyStrip line)

/-- `convert_unix_to_powershell` (lines 67-160).  Returns `none` exactly
when the Python function falls off the end and returns `None`. -/
def convert_unix_to_powershell (line : String) : Option (String × String) :=
  let parts := tokenize line
  let base_command := parts.headD ""
  let args := parts.tail
  dispatch command_mappings base_command args

/-- Response model of the `/convert` endpoint (lines 57-61). -/
structure PowerShellResponse where
  unix_command : String
  powershell_command : String
  explanation : Option String
  status : String
  deriving DecidableEq, Repr

/-- The message of the HTTP 500 raised when unpacking
`convert_unix_to_powershell`'s `None` return value fails (lines 174-189):
`f"Error converting command: {str(e)}"` with `e` the `TypeError`. -/
def unpackErrorMsg : String :=
  "Error converting command: cannot unpack non-iterable NoneType object"

/-- The `/convert` endpoint body `convert_command` (lines 166-189).
`Except.error (code, detail)` models `HTTPException(status_code=code,
detail=detail)`. -/
def convert_command (command : String) (include_explanation : Bool) :
    Except (Nat × String) PowerShellResponse :=
  if pyStrip command = "" then
    .error (400, "Command cannot be empty")
  else
    match convert_unix_to_powershell command with
    | none => .error (500, unpackErrorMsg)
    | some (ps_command, explanation) =>
      .ok { unix_command := command
            powershell_command := ps_command
            explanation := if include_explanation then some explanation else none
            status := "success" }

/-- The comment-style marker that identifies an unmapped base command in
the converter's output (the constant head of `placeholder`). -/
def noMapPref : String :=
  "# No direct mapping found for"

/-! ### General lemmas about the string embedding -/

lemma isPrefixOf_append_self (l r : List Char) : l.isPrefixOf (l ++ r) = true := by
  induction l with
  | nil => cases r <;> rfl
  | cons c cs ih => simp [List.isPrefixOf, ih]

lemma head?_append_of_head? (s t : String) (c : Char) (h : s.data.head? = some c) :
    (s ++ t).data.head? = some c := by
  rw [String.data_append]
  cases hs : s.data with
  | nil => rw [hs] at h; simp at h
  | cons d l => rw [hs] at h; simp only [List.head?] at h ⊢; exact h

lemma strStartsWith_noMapPref_false (s : String) (h : s.data.head? ≠ some '#') :
    strStartsWith s noMapPref = false := by
  unfold strStartsWith
  have hp : noMapPref.data = '#' :: (" No direct mapping found for" : String).data := rfl
  rw [hp]
  cases hs : s.data with
  | nil => rfl
  | cons d l =>
    rw [hs] at h
    simp only [List.head?, ne_eq, Option.some.injEq] at h
    have hd : ('#' == d) = false := by
      cases hdc : ('#' == d) with
      | false => rfl
      | true => exact absurd (beq_iff_eq.mp hdc).symm h
    simp [List.isPrefixOf, hd]

lemma dispatch_unmapped (m : List (String × String)) (base : String) (args : List String)
    (h : lookup m base = none) :
    dispatch m base args = some (placeholder base, unmappedExpl base) := by
  unfold dispatch
  rw [h]

lemma strStartsWith_placeholder (base : String) :
    strStartsWith (placeholder base) noMapPref = true := by
  unfold strStartsWith placeholder
  have h : ("# No direct mapping found for '" : String).data
      = noMapPref.data ++ (" '" : String).data := rfl
  rw [String.data_append, String.data_append, h, List.append_assoc, List.append_assoc]
  exact isPrefixOf_append_self _ _

/-! ### C1 -/

/-- C1: the claim states that `find` with `-name` as the last token falls
through to the positional-path branch and still produces a result.  The
code does not: the inner bounds check `name_idx + 1 < len(args)` has no
`else`, so control falls off the end of `convert_unix_to_powershell`,
which returns `None`, and the endpoint surfaces a 500 error — contradicting
both the claim and the function's own `-> tuple[str, str]` annotation and
docstring.  This theorem records the actual behaviour of the code at the
failing input `find -name`. -/
theorem C1_find_name_dangling :
    convert_unix_to_powershell "find -name" = none ∧
    convert_command "find -name" true = Except.error (500, unpackErrorMsg) :=
  ⟨by decide, rfl⟩

/-! ### C2 -/

/-- C2 counterexample: with an unparsable external mapping source, `load()`
does not return a mapping at all — the `JSONDecodeError` propagates (only
`FileNotFoundError` is caught), so the claimed "missing OR unparsable"
fallback is wrong on the unparsable side. -/
theorem C2_counterexample :
    load_command_mappings ReadResult.unparsable
      = Except.error "json.decoder.JSONDecodeError" := rfl

/-- C2 (amended): the fallback to the built-in default table happens
exactly when the external source is missing (`FileNotFoundError`); a
parsable source is returned as-is; an unparsable source raises — the
error is not caught, so `load()` does not always return a mapping. -/
theorem C2_fallback_only_on_missing :
    load_command_mappings ReadResult.missing = Except.ok defaultMappings ∧
    (∀ m, load_command_mappings (ReadResult.parsed m) = Except.ok m) ∧
    load_command_mappings ReadResult.unparsable
      = Except.error "json.decoder.JSONDecodeError" :=
  ⟨rfl, fun _ => rfl, rfl⟩

/-! ### C5 -/

/-- C5: an empty or whitespace-only command string is rejected at the
boundary with a 400 error before reaching `convert_unix_to_powershell`;
no conversion result is produced. -/
theorem C5_blank_rejected (command : String) (b : Bool)
    (h : pyStrip command = "") :
    convert_command command b = Except.error (400, "Command cannot be empty") := by
  unfold convert_command
  rw [if_pos h]

/-- Witness for C5 at the whitespace-only input `"   "`. -/
theorem C5_blank_rejected_witness :
    pyStrip "   " = "" ∧
    convert_command "   " false = Except.error (400, "Command cannot be empty") :=
  ⟨by decide, C5_blank_rejected "   " false (by decide)⟩

/-! ### C10 -/

/-- C10: for `head` and `tail`, whatever characters follow the leading
dash of the first argument are inserted verbatim into the
`Select-Object -First` (resp. `-Last`) clause with no numeric validation,
both with a second argument (treated as the file) and without one; in
particular `head -n 5` produces `Get-Content '5' | Select-Object -First n`
(the token `5` becoming the file name), and `tail -n 5` the `-Last`
analogue. -/
theorem C10_head_count_unvalidated (s f : String) (rest : List String) :
    dispatch command_mappings "head" (("-" ++ s) :: f :: rest) =
      some ("Get-Content '" ++ f ++ "' | Select-Object -First " ++ s,
            "Shows first " ++ s ++ " lines of file '" ++ f ++ "'") ∧
    dispatch command_mappings "tail" (("-" ++ s) :: f :: rest) =
      some ("Get-Content '" ++ f ++ "' | Select-Object -Last " ++ s,
            "Shows last " ++ s ++ " lines of file '" ++ f ++ "'") ∧
    dispatch command_mappings "head" [("-" ++ s)] =
      some ("Select-Object -First " ++ s, "Shows first " ++ s ++ " lines") ∧
    dispatch command_mappings "tail" [("-" ++ s)] =
      some ("Select-Object -Last " ++ s, "Shows last " ++ s ++ " lines") ∧
    convert_unix_to_powershell "head -n 5" =
      some ("Get-Content '5' | Select-Object -First n",
            "Shows first n lines of file '5'") ∧
    convert_unix_to_powershell "tail -n 5" =
      some ("Get-Content '5' | Select-Object -Last n",
            "Shows last n lines of file '5'") := by
  have h1 : strStartsWith ("-" ++ s) "-" = true := by
    unfold strStartsWith
    rw [String.data_append]
    exact isPrefixOf_append_self _ _
  have h2 : pyDrop1 ("-" ++ s) = s := by
    refine String.ext ?_
    show (("-" ++ s).data).drop 1 = s.data
    rw [String.data_append]
    rfl
  refine ⟨?_, ?_, ?_, ?_, by decide, by decide⟩
  · show some (headRule (("-" ++ s) :: f :: rest)) = _
    simp [headRule, h1, h2]
  · show some (tailRule (("-" ++ s) :: f :: rest)) = _
    simp [tailRule, h1, h2]
  · show some (headRule [("-" ++ s)]) = _
    simp [headRule, h1, h2]
  · show some (tailRule [("-" ++ s)]) = _
    simp [tailRule, h1, h2]

/-! ### C3 -/

/-- C3: for `head` and `tail`, a dash-prefixed first argument yields the
stripped count; with a file the output is
`Get-Content '<file>' | Select-Object -First <count>` (resp. `-Last`),
without one `Select-Object -First <count>` (resp. `-Last`) alone; a
missing or non-dash first argument yields the default
`Get-Content | Select-Object -First 10` (resp. `-Last`), ignoring any
file, with `head` mapping to `-First` and `tail` to
`-Last`; in particular `tail file.txt` yields
`Get-Content | Select-Object -Last 10`. -/
theorem C3_head_tail_rules (c f : String) (rest : List String) :
    (strStartsWith c "-" = true →
      dispatch command_mappings "head" (c :: f :: rest) =
        some ("Get-Content '" ++ f ++ "' | Select-Object -First " ++ pyDrop1 c,
              "Shows first " ++ pyDrop1 c ++ " lines of file '" ++ f ++ "'") ∧
      dispatch command_mappings "tail" (c :: f :: rest) =
        some ("Get-Content '" ++ f ++ "' | Select-Object -Last " ++ pyDrop1 c,
              "Shows last " ++ pyDrop1 c ++ " lines of file '" ++ f ++ "'") ∧
      dispatch command_mappings "head" [c] =
        some ("Select-Object -First " ++ pyDrop1 c,
              "Shows first " ++ pyDrop1 c ++ " lines") ∧
      dispatch command_mappings "tail" [c] =
        some ("Select-Object -Last " ++ pyDrop1 c,
              "Shows last " ++ pyDrop1 c ++ " lines")) ∧
    (strStartsWith c "-" = false →
      dispatch command_mappings "head" (c :: rest) =
        some ("Get-Content | Select-Object -First 10", "Shows first 10 lines (default)") ∧
      dispatch command_mappings "tail" (c :: rest) =
        some ("Get-Content | Select-Object -Last 10", "Shows last 10 lines (default)")) ∧
    dispatch command_mappings "head" [] =
      some ("Get-Content | Select-Object -First 10", "Shows first 10 lines (default)") ∧
    dispatch command_mappings "tail" [] =
      some ("Get-Content | Select-Object -Last 10", "Shows last 10 lines (default)") ∧
    convert_unix_to_powershell "tail file.txt" =
      some ("Get-Content | Select-Object -Last 10", "Shows last 10 lines (default)") := by
  refine ⟨fun h => ⟨?_, ?_, ?_, ?_⟩, fun h => ⟨?_, ?_⟩, rfl, rfl, by decide⟩
  · show some (headRule (c :: f :: rest)) = _
    simp [headRule, h]
  · show some (tailRule (c :: f :: rest)) = _
    simp [tailRule, h]
  · show some (headRule [c]) = _
    simp [headRule, h]
  · show some (tailRule [c]) = _
    simp [tailRule, h]
  · show some (headRule (c :: rest)) = _
    simp [headRule, h]
  · show some (tailRule (c :: rest)) = _
    simp [tailRule, h]

/-- Witness for C3, instantiated at `head -5 file.txt` (dash-prefixed
count with a file) and `tail file.txt` (no dash-prefixed count). -/
theorem C3_head_tail_rules_witness :
    strStartsWith "-5" "-" = true ∧
    dispatch command_mappings "head" ["-5", "file.txt"] =
      some ("Get-Content '" ++ "file.txt" ++ "' | Select-Object -First " ++ pyDrop1 "-5",
            "Shows first " ++ pyDrop1 "-5" ++ " lines of file '" ++ "file.txt" ++ "'") ∧
    strStartsWith "file.txt" "-" = false ∧
    dispatch command_mappings "tail" ["file.txt"] =
      some ("Get-Content | Select-Object -Last 10", "Shows last 10 lines (default)") :=
  ⟨by decide, ((C3_head_tail_rules "-5" "file.txt" []).1 (by decide)).1,
   by decide, ((C3_head_tail_rules "file.txt" "" []).2.1 (by decide)).2⟩

/-! ### C4 -/

/-- C4: any non-blank input line whose base token is absent from the
mapping table converts successfully: the PowerShell command is the
`# No direct mapping found for '<base>'` placeholder, the explanation
(when requested) names the base command, and the status is `success`. -/
theorem C4_unmapped_succeeds (line : String) (b : Bool)
    (hne : pyStrip line ≠ "")
    (hmiss : lookup command_mappings ((tokenize line).headD "") = none) :
    convert_command line b =
      Except.ok { unix_command := line
                  powershell_command := placeholder ((tokenize line).headD "")
                  explanation :=
                    if b then some (unmappedExpl ((tokenize line).headD "")) else none
                  status := "success" } := by
  have hconv : convert_unix_to_powershell line =
      some (placeholder ((tokenize line).headD ""),
            unmappedExpl ((tokenize line).headD "")) :=
    dispatch_unmapped command_mappings ((tokenize line).headD "") (tokenize line).tail hmiss
  simp [convert_command, hne, hconv]

/-- Witness for C4 at the unmapped input `zork somearg` with the
explanation requested. -/
theorem C4_unmapped_succeeds_witness :
    pyStrip "zork somearg" ≠ "" ∧
    lookup command_mappings ((tokenize "zork somearg").headD "") = none ∧
    convert_command "zork somearg" true =
      Except.ok { unix_command := "zork somearg"
                  powershell_command := placeholder ((tokenize "zork somearg").headD "")
                  explanation :=
                    if true then some (unmappedExpl ((tokenize "zork somearg").headD "")) else none
                  status := "success" } :=
  ⟨by decide, by decide, C4_unmapped_succeeds "zork somearg" true (by decide) (by decide)⟩

/-! ### C6 -/

/-- C6: for `ls`, args containing `-la` or `-l` yield
`Get-ChildItem | Format-List`; otherwise args containing `-a` yield
`Get-ChildItem -Force`; otherwise the unmodified template — the
`-la`/`-l` check taking precedence over the `-a` check. -/
theorem C6_ls_flags (args : List String) :
    (("-la" ∈ args ∨ "-l" ∈ args) →
      dispatch command_mappings "ls" args =
        some ("Get-ChildItem | Format-List", "Lists files with detailed information")) ∧
    (¬ ("-la" ∈ args ∨ "-l" ∈ args) → "-a" ∈ args →
      dispatch command_mappings "ls" args =
        some ("Get-ChildItem -Force", "Lists all files including hidden ones")) ∧
    (¬ ("-la" ∈ args ∨ "-l" ∈ args) → "-a" ∉ args →
      dispatch command_mappings "ls" args =
        some ("Get-ChildItem", "Lists files and directories")) := by
  refine ⟨fun h => ?_, fun h1 h2 => ?_, fun h1 h2 => ?_⟩
  · show some (lsRule "Get-ChildItem" args) = _
    simp [lsRule, h]
  · show some (lsRule "Get-ChildItem" args) = _
    simp [lsRule, h1, h2]
  · show some (lsRule "Get-ChildItem" args) = _
    simp [lsRule, h1, h2]

/-- Witness for C6: `ls -la -a` takes the `Format-List` branch (showing
the precedence), `ls -a` the `-Force` branch, and bare `ls` the
template. -/
theorem C6_ls_flags_witness :
    dispatch command_mappings "ls" ["-la", "-a"] =
      some ("Get-ChildItem | Format-List", "Lists files with detailed information") ∧
    dispatch command_mappings "ls" ["-a"] =
      some ("Get-ChildItem -Force", "Lists all files including hidden ones") ∧
    dispatch command_mappings "ls" [] =
      some ("Get-ChildItem", "Lists files and directories") :=
  ⟨(C6_ls_flags ["-la", "-a"]).1 (by decide),
   (C6_ls_flags ["-a"]).2.1 (by decide) (by decide),
   (C6_ls_flags []).2.2 (by decide) (by decide)⟩

/-! ### C7 -/

/-- C7: for `cd`, `mkdir`, `rmdir`, `rm`, `cp`, `mv` and `cat`, every
argument list is joined with single spaces into one quoted target
appended to the template, and no arguments yield the bare template. -/
theorem C7_join_targets (base a : String) (rest : List String)
    (hb : base ∈ ["cd", "mkdir", "rmdir", "rm", "cp", "mv", "cat"]) :
    dispatch command_mappings base (a :: rest) =
      some ((lookup command_mappings base).getD "" ++ " '"
              ++ String.intercalate " " (a :: rest) ++ "'",
            "Performs " ++ base ++ " operation on '"
              ++ String.intercalate " " (a :: rest) ++ "'") ∧
    dispatch command_mappings base [] =
      some ((lookup command_mappings base).getD "",
            "PowerShell equivalent of " ++ base) := by
  simp only [List.mem_cons, List.not_mem_nil, or_false] at hb
  rcases hb with rfl | rfl | rfl | rfl | rfl | rfl | rfl <;> exact ⟨rfl, rfl⟩

/-- Witness for C7: `rm myfile.txt` (single argument) and `cp a b`
(two arguments joined into one quoted target). -/
theorem C7_join_targets_witness :
    "rm" ∈ ["cd", "mkdir", "rmdir", "rm", "cp", "mv", "cat"] ∧
    dispatch command_mappings "rm" ["myfile.txt"] =
      some ((lookup command_mappings "rm").getD "" ++ " '"
              ++ String.intercalate " " ["myfile.txt"] ++ "'",
            "Performs " ++ "rm" ++ " operation on '"
              ++ String.intercalate " " ["myfile.txt"] ++ "'") ∧
    dispatch command_mappings "cp" ["a", "b"] =
      some ((lookup command_mappings "cp").getD "" ++ " '"
              ++ String.intercalate " " ["a", "b"] ++ "'",
            "Performs " ++ "cp" ++ " operation on '"
              ++ String.intercalate " " ["a", "b"] ++ "'") :=
  ⟨by decide,
   (C7_join_targets "rm" "myfile.txt" [] (by decide)).1,
   (C7_join_targets "cp" "a" ["b"] (by decide)).1⟩

/-! ### C8 -/

/-- C8: for `find`, when a token immediately follows the first `-name` in
the args the converter emits `Get-ChildItem -Recurse -Name '*<pattern>*'`
with that token inserted verbatim between the asterisks; in particular
`find -name *.txt` yields `Get-ChildItem -Recurse -Name '**.txt*'`. -/
theorem C8_find_name_pattern (args : List String)
    (hmem : "-name" ∈ args)
    (hlt : args.indexOf "-name" + 1 < args.length) :
    dispatch command_mappings "find" args =
      some ("Get-ChildItem -Recurse -Name '*"
              ++ args.getD (args.indexOf "-name" + 1) "" ++ "*'",
            "Finds files matching pattern '"
              ++ args.getD (args.indexOf "-name" + 1) "" ++ "'") ∧
    convert_unix_to_powershell "find -name *.txt" =
      some ("Get-ChildItem -Recurse -Name '**.txt*'",
            "Finds files matching pattern '*.txt'") := by
  constructor
  · have hne : args ≠ [] := List.ne_nil_of_mem hmem
    show findRule "Get-ChildItem -Recurse" args = _
    simp [findRule, hne, hmem, hlt]
  · decide

/-- Witness for C8 at `find -name *.txt`. -/
theorem C8_find_name_pattern_witness :
    "-name" ∈ ["-name", "*.txt"] ∧
    List.indexOf "-name" ["-name", "*.txt"] + 1 < (["-name", "*.txt"] : List String).length ∧
    dispatch command_mappings "find" ["-name", "*.txt"] =
      some ("Get-ChildItem -Recurse -Name '*"
              ++ (["-name", "*.txt"] : List String).getD
                   (List.indexOf "-name" ["-name", "*.txt"] + 1) "" ++ "*'",
            "Finds files matching pattern '"
              ++ (["-name", "*.txt"] : List String).getD
                   (List.indexOf "-name" ["-name", "*.txt"] + 1) "" ++ "'") :=
  ⟨by decide, by decide,
   (C8_find_name_pattern ["-name", "*.txt"] (by decide) (by decide)).1⟩

/-! ### C9: no mapped rule's output starts with the placeholder marker -/

lemma ne_hash_append (s t : String) (c : Char) (h : s.data.head? = some c)
    (hc : c ≠ '#') : (s ++ t).data.head? ≠ some '#' := by
  rw [head?_append_of_head? s t c h]
  simp [hc]

lemma ne_hash_of_head? (s : String) (c : Char) (h : s.data.head? = some c)
    (hc : c ≠ '#') : s.data.head? ≠ some '#' := by
  rw [h]
  simp [hc]

lemma lsRule_head (ps_base : String) (args : List String) (c : Char)
    (hb : ps_base.data.head? = some c) (hc : c ≠ '#') :
    (lsRule ps_base args).1.data.head? ≠ some '#' := by
  unfold lsRule
  split_ifs with h1 h2
  · decide
  · decide
  · exact ne_hash_of_head? ps_base c hb hc

lemma grepRule_head (ps_base : String) (args : List String) (c : Char)
    (hb : ps_base.data.head? = some c) (hc : c ≠ '#') :
    (grepRule ps_base args).1.data.head? ≠ some '#' := by
  unfold grepRule
  match args with
  | [] => exact ne_hash_of_head? ps_base c hb hc
  | [pattern] =>
    exact ne_hash_append _ _ 'S' (head?_append_of_head? _ _ 'S' rfl) (by decide)
  | pattern :: file :: rest =>
    exact ne_hash_append _ _ 'S'
      (head?_append_of_head? _ _ 'S'
        (head?_append_of_head? _ _ 'S' (head?_append_of_head? _ _ 'S' rfl))) (by decide)

lemma findRule_head (ps_base : String) (args : List String) (ps ex : String) (c : Char)
    (hb : ps_base.data.head? = some c) (hc : c ≠ '#')
    (h : findRule ps_base args = some (ps, ex)) :
    ps.data.head? ≠ some '#' := by
  unfold findRule at h
  by_cases h1 : args = []
  · rw [if_pos h1] at h
    simp only [Option.some.injEq, Prod.mk.injEq] at h
    obtain ⟨rfl, rfl⟩ := h
    exact ne_hash_of_head? ps_base c hb hc
  · rw [if_neg h1] at h
    by_cases h2 : "-name" ∈ args
    · rw [if_pos h2] at h
      by_cases h3 : args.indexOf "-name" + 1 < args.length
      · rw [if_pos h3] at h
        simp only [Option.some.injEq, Prod.mk.injEq] at h
        obtain ⟨rfl, rfl⟩ := h
        exact ne_hash_append _ _ 'G' (head?_append_of_head? _ _ 'G' rfl) (by decide)
      · rw [if_neg h3] at h
        exact absurd h (by simp)
    · rw [if_neg h2] at h
      simp only [Option.some.injEq, Prod.mk.injEq] at h
      obtain ⟨rfl, rfl⟩ := h
      exact ne_hash_append _ _ 'G' (head?_append_of_head? _ _ 'G' rfl) (by decide)

lemma headRule_head (args : List String) :
    (headRule args).1.data.head? ≠ some '#' := by
  cases args with
  | nil => decide
  | cons a rest =>
    show ((if strStartsWith a "-" = true then _ else _ : String × String)).1.data.head? ≠ _
    by_cases hcond : strStartsWith a "-" = true
    · rw [if_pos hcond]
      cases rest with
      | nil => exact ne_hash_append _ _ 'S' rfl (by decide)
      | cons f rest2 =>
        exact ne_hash_append _ _ 'G'
          (head?_append_of_head? _ _ 'G' (head?_append_of_head? _ _ 'G' rfl)) (by decide)
    · rw [if_neg hcond]
      decide

lemma tailRule_head (args : List String) :
    (tailRule args).1.data.head? ≠ some '#' := by
  cases args with
  | nil => decide
  | cons a rest =>
    show ((if strStartsWith a "-" = true then _ else _ : String × String)).1.data.head? ≠ _
    by_cases hcond : strStartsWith a "-" = true
    · rw [if_pos hcond]
      cases rest with
      | nil => exact ne_hash_append _ _ 'S' rfl (by decide)
      | cons f rest2 =>
        exact ne_hash_append _ _ 'G'
          (head?_append_of_head? _ _ 'G' (head?_append_of_head? _ _ 'G' rfl)) (by decide)
    · rw [if_neg hcond]
      decide

lemma killRule_head (ps_base : String) (args : List String) (c : Char)
    (hb : ps_base.data.head? = some c) (hc : c ≠ '#') :
    (killRule ps_base args).1.data.head? ≠ some '#' := by
  unfold killRule
  match args with
  | [] => exact ne_hash_of_head? ps_base c hb hc
  | pid :: rest => exact ne_hash_append _ _ 'S' rfl (by decide)

lemma joinRule_head (ps_base base : String) (args : List String) (c : Char)
    (hb : ps_base.data.head? = some c) (hc : c ≠ '#') :
    (joinRule ps_base base args).1.data.head? ≠ some '#' := by
  unfold joinRule
  match args with
  | [] => exact ne_hash_of_head? ps_base c hb hc
  | a :: rest =>
    exact ne_hash_append _ _ c
      (head?_append_of_head? _ _ c (head?_append_of_head? _ _ c hb)) hc

lemma defaultRule_head (ps_base base : String) (args : List String) (c : Char)
    (hb : ps_base.data.head? = some c) (hc : c ≠ '#') :
    (defaultRule ps_base base args).1.data.head? ≠ some '#' := by
  unfold defaultRule
  match args with
  | [] => exact ne_hash_of_head? ps_base c hb hc
  | a :: rest => exact ne_hash_append _ _ c (head?_append_of_head? _ _ c hb) hc

lemma dispatch_hash_iff (base : String) (args : List String) (ps ex : String)
    (h : dispatch command_mappings base args = some (ps, ex)) :
    (strStartsWith ps noMapPref = true ↔ lookup command_mappings base = none) := by
  cases hlook : lookup command_mappings base with
  | none =>
    rw [dispatch_unmapped command_mappings base args hlook] at h
    simp only [Option.some.injEq, Prod.mk.injEq] at h
    obtain ⟨rfl, rfl⟩ := h
    simp [strStartsWith_placeholder]
  | some ps_base =>
    have htab : ∀ p ∈ command_mappings, p.2.data.head? ≠ some '#' ∧ p.2.data ≠ [] := by
      decide
    have hget : ∃ p ∈ command_mappings, p.2 = ps_base := by
      unfold lookup at hlook
      obtain ⟨p, hfind, hp⟩ := Option.map_eq_some'.mp hlook
      exact ⟨p, List.mem_of_find?_eq_some hfind, hp⟩
    obtain ⟨p, hmem, hp⟩ := hget
    have hhead := (htab p hmem).1
    have hnil := (htab p hmem).2
    rw [hp] at hhead hnil
    cases hcd : ps_base.data with
    | nil => exact absurd hcd hnil
    | cons c l =>
      have hb : ps_base.data.head? = some c := by rw [hcd]; rfl
      have hc : c ≠ '#' := by
        rw [hcd] at hhead
        simpa using hhead
      suffices hps : ps.data.head? ≠ some '#' by
        rw [strStartsWith_noMapPref_false ps hps]
        simp
      unfold dispatch at h
      rw [hlook] at h
      simp only [] at h
      split_ifs at h with h1 h2 h3 h4 h5 h6 h7
      · have hps1 : (lsRule ps_base args).1 = ps := congrArg Prod.fst (Option.some.inj h)
        rw [← hps1]
        exact lsRule_head ps_base args c hb hc
      · have hps1 : (grepRule ps_base args).1 = ps := congrArg Prod.fst (Option.some.inj h)
        rw [← hps1]
        exact grepRule_head ps_base args c hb hc
      · exact findRule_head ps_base args ps ex c hb hc h
      · have hps1 : (headRule args).1 = ps := congrArg Prod.fst (Option.some.inj h)
        rw [← hps1]
        exact headRule_head args
      · have hps1 : (tailRule args).1 = ps := congrArg Prod.fst (Option.some.inj h)
        rw [← hps1]
        exact tailRule_head args
      · have hps1 : (killRule ps_base args).1 = ps := congrArg Prod.fst (Option.some.inj h)
        rw [← hps1]
        exact killRule_head ps_base args c hb hc
      · have hps1 : (joinRule ps_base base args).1 = ps := congrArg Prod.fst (Option.some.inj h)
        rw [← hps1]
        exact joinRule_head ps_base base args c hb hc
      · have hps1 : (defaultRule ps_base base args).1 = ps := congrArg Prod.fst (Option.some.inj h)
        rw [← hps1]
        exact defaultRule_head ps_base base args c hb hc

/-- C9: an output of the converter begins with the marker
`# No direct mapping found for` exactly when the input line's base token
is absent from the mapping table — no mapped command's rule ever emits
the placeholder marker, so the marker uniquely identifies the unmapped
case. -/
theorem C9_placeholder_iff_unmapped (line ps ex : String)
    (h : convert_unix_to_powershell line = some (ps, ex)) :
    (strStartsWith ps noMapPref = true ↔
      lookup command_mappings ((tokenize line).headD "") = none) :=
  dispatch_hash_iff ((tokenize line).headD "") (tokenize line).tail ps ex h

/-- Witness for C9 at the unmapped input `zork somearg`. -/
theorem C9_placeholder_iff_unmapped_witness :
    convert_unix_to_powershell "zork somearg" =
      some (placeholder "zork", unmappedExpl "zork") ∧
    (strStartsWith (placeholder "zork") noMapPref = true ↔
      lookup command_mappings ((tokenize "zork somearg").headD "") = none) :=
  ⟨by decide,
   C9_placeholder_iff_unmapped "zork somearg" (placeholder "zork") (unmappedExpl "zork")
     (by decide)⟩

end UnixToPS
